import Mathlib

/-!
Verification of the weak-topic remediation pipeline of the Self-Paced-RPG
repository (src/self-paced-learning/app.py and utils/data_loader.py).

The Python route handlers are shallowly embedded as pure Lean functions:
* the grading loop of `analyze_quiz` (app.py lines 556-611) becomes
  `gradeOne` / `gradeList` / `gradeAll`;
* the classifier-response validation of `analyze_quiz` (lines 660-705)
  becomes `extractCandidate` / `validateTopics` / `analyzeRespond`;
* the session writes of `analyze_quiz` (lines 710-731) become
  `analyzeStoreUpdate`;
* the question selection of `generate_remedial_quiz` (lines 876-891)
  becomes `selectRemedial`;
* the weak-topic gate of `generate_remedial_quiz` (lines 832-859) becomes
  `remedialGate`;
* the per-tag lesson map of `show_results_page` (lines 1029-1111) becomes
  `lessonsByTopic` / `pickBest` / `resultsLessonPlans`.

Python dictionaries are modelled as insertion-ordered association lists
(`dget` / `dset`), Python string operations by `pyStrip` / `pyLower`, the
Python `round` builtin (half-to-even) by `pyRound` over the rationals, and a
Python runtime `TypeError` by `Except.error`.
-/

/-- Characters stripped by Python `str.strip()` (the ASCII whitespace
characters; the grading code only ever meets these). -/
def pyIsSpace (c : Char) : Bool :=
  c = ' ' || c = '\t' || c = '\n' || c = '\x0d' || c = '\x0b' || c = '\x0c'

/-- Python `str.strip()`: drop leading and trailing whitespace. -/
def pyStrip (s : String) : String :=
  ⟨((s.data.dropWhile pyIsSpace).reverse.dropWhile pyIsSpace).reverse⟩

/-- Python `str.lower()` (ASCII case folding suffices for the tag strings of
this repository). -/
def pyLower (s : String) : String :=
  ⟨s.data.map Char.toLower⟩

/-- Per-question grading status, written as strings by the Python code:
`"Correct"`, `"Incorrect"`, `"Invalid Question Data"`, `"For AI Review"`. -/
inductive Status where
  | correct
  | incorrect
  | invalidData
  | forAIReview
deriving DecidableEq

/-- One question dictionary as the grading loop of `analyze_quiz` reads it:
every field is optional exactly where the code uses `dict.get`; a `none`
models an absent key. -/
structure QData where
  type? : Option String
  question? : Option String
  options? : Option (List String)
  answer_index? : Option Int
  correct_answer? : Option String
  sample_solution? : Option String
deriving DecidableEq

/-- `q_data.get("type", "multiple_choice")`. -/
def qtype (q : QData) : String :=
  q.type?.getD "multiple_choice"

/-- Split a character list at every comma, keeping empty pieces, as Python
`str.split(",")` does (so the empty string yields one empty piece). -/
def commaSplit : List Char → List (List Char)
  | [] => [[]]
  | c :: rest =>
    let r := commaSplit rest
    if c = ',' then [] :: r
    else (c :: r.headD []) :: r.tail

/-- Python `s.split(",")`. -/
def pySplitComma (s : String) : List String :=
  (commaSplit s.data).map (fun l => ⟨l⟩)

/-- The comma-separated alternatives for a fill-in-the-blank answer, each
trimmed and lowercased (app.py lines 590-592). -/
def fitbAlternatives (correct : String) : List String :=
  (pySplitComma correct).map (fun a => pyLower (pyStrip a))

/-- Grade one question (app.py lines 560-609). `Except.error ()` models the
Python `TypeError` raised by `0 <= None < len(options)` when a
multiple-choice question has no `answer_index` key. -/
def gradeOne (q : QData) (userAnswer : String) : Except Unit Status :=
  if qtype q = "multiple_choice" then
    match q.answer_index? with
    | none => .error ()
    | some idx =>
      let opts := q.options?.getD []
      if 0 ≤ idx ∧ idx < (opts.length : Int) then
        if userAnswer = opts.getD idx.toNat "" then .ok .correct
        else .ok .incorrect
      else .ok .invalidData
  else if qtype q = "fill_in_the_blank" then
    if pyLower (pyStrip userAnswer) ∈ fitbAlternatives (q.correct_answer?.getD "") then
      .ok .correct
    else .ok .incorrect
  else if qtype q = "coding" then .ok .forAIReview
  else .ok .incorrect

/-- The grading loop: `answers` is the submission (`answers.get("q{i}")`,
`none` when the position has no entry, in which case the answer defaults to
`"[No answer provided]"`); the result pairs the status list with the
`correct_answers` counter. A `TypeError` in any iteration aborts the whole
request. -/
def gradeList (answers : Nat → Option String) : List QData → Nat → Except Unit (List Status × Nat)
  | [], _ => .ok ([], 0)
  | q :: qs, i =>
    match gradeOne q ((answers i).getD "[No answer provided]") with
    | .error e => .error e
    | .ok s =>
      match gradeList answers qs (i + 1) with
      | .error e => .error e
      | .ok (sts, c) => .ok (s :: sts, (if s = Status.correct then 1 else 0) + c)

/-- Grading of the whole served quiz, starting at question 0. -/
def gradeAll (qs : List QData) (answers : Nat → Option String) : Except Unit (List Status × Nat) :=
  gradeList answers qs 0

/-- Python `round` on a rational value: round half to even. -/
def pyRound (q : ℚ) : ℤ :=
  let f : ℤ := ⌊q⌋
  if q - f < 1 / 2 then f
  else if 1 / 2 < q - f then f + 1
  else if f % 2 = 0 then f else f + 1

/-- `round((correct_answers / total_questions) * 100) if total_questions > 0
else 0` (app.py lines 789-793). -/
def scorePercentage (correct total : Nat) : ℤ :=
  if 0 < total then pyRound ((correct : ℚ) / (total : ℚ) * 100) else 0

example : gradeOne ⟨some "multiple_choice", some "q", some ["2", "3"], some 0, none, none⟩ "3" = .ok .incorrect := rfl
example : gradeOne ⟨some "fill_in_the_blank", some "q", none, none, some "4, four", none⟩ " Four " = .ok .correct := rfl
example : gradeOne ⟨some "multiple_choice", some "q", some ["2", "3"], some 5, none, none⟩ "3" = .ok .invalidData := rfl
example : gradeOne ⟨some "multiple_choice", some "q", some ["2", "3"], none, none, none⟩ "3" = .error () := rfl
example : scorePercentage 1 2 = 50 := by norm_num [scorePercentage, pyRound]
example : scorePercentage 0 0 = 0 := by norm_num [scorePercentage]
example : scorePercentage 1 8 = 12 := by norm_num [scorePercentage, pyRound]
example : scorePercentage 3 8 = 38 := by norm_num [scorePercentage, pyRound]

/-! ## Classifier response validation (app.py lines 660-705) -/

/-- The substring matched by `re.search(r"\x7b[\s\S]*\x7d", text)`: leftmost
match, greedy, so it runs from the first opening brace to the last closing
brace after it; `none` when the regex does not match. -/
def braceSpan (cs : List Char) : Option (List Char) :=
  match cs.dropWhile (fun c => !(c = '{')) with
  | [] => none
  | c :: rest =>
    let kept := (rest.reverse.dropWhile (fun x => !(x = '}'))).reverse
    if kept = [] then none else some (c :: kept)

/-- The candidate JSON text extracted from the raw classifier reply. -/
def extractCandidate (s : String) : Option String :=
  (braceSpan s.data).map (fun l => ⟨l⟩)

/-- The two fields `analyze_quiz` reads from the parsed JSON object, each
through `dict.get` with a default: `detailed_feedback` and
`weak_concept_tags`. -/
structure Parsed where
  feedback? : Option String
  weak? : Option (List String)

/-- `[topic for topic in weak_topics if topic in allowed_topic_keywords]`
(app.py lines 696-698): keep exactly the candidate tags that are members of
the allowed keyword list. -/
def validateTopics (cand allowed : List String) : List String :=
  cand.filter (fun t => allowed.contains t)

/-- The error exits of `analyze_quiz` after the classifier call: empty reply
text (`if not ai_response_content`), no brace-delimited candidate
(`Could not find JSON`), candidate that fails `json.loads`
(`JSONDecodeError`). -/
inductive AnalyzeErr where
  | noContent
  | noJson
  | badFormat
deriving DecidableEq

/-- The JSON body each error path returns, as (HTTP status, feedback text,
weak topic list) (app.py lines 660-684 and 807-819). -/
def errBody : AnalyzeErr → Nat × String × List String
  | .noContent => (500, "Error: Could not get analysis from AI.", [])
  | .noJson => (500, "Error: The analysis response did not contain a valid JSON object.", [])
  | .badFormat => (500, "Error: The analysis response format was invalid.", [])

/-- The validation pipeline of `analyze_quiz` from the raw classifier reply
to feedback and validated weak topics. `parse` stands for `json.loads` on
the extracted candidate (`none` models a `JSONDecodeError`); quantifying
over it makes the theorems hold for every classifier output. -/
def analyzeRespond (parse : String → Option Parsed) (raw : String)
    (allowed : List String) : Except AnalyzeErr (String × List String) :=
  if raw = "" then .error .noContent
  else
    match extractCandidate raw with
    | none => .error .noJson
    | some s =>
      match parse s with
      | none => .error .badFormat
      | some p =>
        .ok (p.feedback?.getD "No detailed feedback provided.",
             validateTopics (p.weak?.getD []) allowed)

example : extractCandidate "pre {a: 1} post" = some "{a: 1}" := rfl
example : extractCandidate "no json here" = none := rfl
example : extractCandidate "" = none := rfl
example : braceSpan ['}', ' ', '{'] = none := rfl
example : validateTopics ["add", "bogus"] ["add", "subtract"] = ["add"] := rfl
example :
    analyzeRespond (fun _ => some ⟨some "ok", some ["add", "bogus"]⟩)
      "x {k: 1} y" ["add", "subtract"] = .ok ("ok", ["add"]) := rfl

/-! ## Session state written by the pipeline -/

/-- `get_session_key(subject, subtopic, key_type)` (app.py lines 55-57). -/
def sessionKey (subject subtopic keyType : String) : String :=
  subject ++ "_" ++ subtopic ++ "_" ++ keyType

/-- One entry of the `find_lessons_by_tags` result (data_loader.py lines
337-348): the locator of a matching lesson plus the tags it shares with the
searched weak topics. -/
structure LessonInfo where
  subject : String
  subtopic : String
  lesson_id : String
  title : String
  tags : List String
  matching_tags : List String
deriving DecidableEq

/-- A value stored in the Flask session under a prefixed key: either a list
of tag strings (`weak_topics`) or a list of lesson records
(`recommended_lessons`). -/
inductive SessVal where
  | tags (l : List String)
  | lessonRecs (l : List LessonInfo)
deriving DecidableEq

/-- The session store as a map from key strings to values. -/
def Store : Type := String → Option SessVal

/-- `session[k] = v`. -/
def storeSet (st : Store) (k : String) (v : SessVal) : Store :=
  fun k2 => if k2 = k then some v else st k2

/-- The session writes of a successful `/analyze` run (app.py lines
710-731): `weak_topics` is always overwritten with the validated list;
`recommended_lessons` is written only inside
`if validated_weak_topics:`, so an empty validated list leaves it
untouched. `found` stands for the `get_lessons_by_tags` result, encoded by
its lesson identifiers. -/
def analyzeStoreUpdate (st : Store) (subject subtopic : String)
    (validated : List String) (found : List LessonInfo) : Store :=
  let st1 := storeSet st (sessionKey subject subtopic "weak_topics") (.tags validated)
  if validated.isEmpty then st1
  else storeSet st1 (sessionKey subject subtopic "recommended_lessons") (.lessonRecs found)

/-! ## Remedial quiz generation (app.py lines 825-932) -/

/-- Python truthiness of an optional session string: `None` and the empty
string are falsy. -/
def pyTruthy : Option String → Bool
  | none => false
  | some s => !(s = "")

/-- How `generate_remedial_quiz` routes before touching the question pool
(app.py lines 832-859): a missing or falsy current subject or subtopic
gives the session-error message, an absent or empty stored weak-topic list
gives the mastered message, and otherwise selection proceeds. -/
inductive RemedialGate where
  | sessionErr
  | mastered
  | proceed (weak : List String)
deriving DecidableEq

/-- The gate of `generate_remedial_quiz`: `session.get(key, [])` cannot tell
an absent `weak_topics` entry from a stored empty list, so both reach the
mastered branch. -/
def remedialGate (curSubject curSubtopic : Option String) (st : Store) : RemedialGate :=
  if !(pyTruthy curSubject) || !(pyTruthy curSubtopic) then .sessionErr
  else
    let weak :=
      match st (sessionKey (curSubject.getD "") (curSubtopic.getD "") "weak_topics") with
      | some (.tags l) => l
      | _ => []
    if weak.isEmpty then .mastered else .proceed weak

/-- A question of the remedial pool as the selection loop reads it:
`question["question"]` is indexed directly and `question.get("tags", [])`
defaults to the empty list (app.py lines 884-891). -/
structure PoolQ where
  question : String
  tags : List String
deriving DecidableEq

/-- `not set(question.get("tags", [])).isdisjoint(weak_topics)`: the
question shares at least one tag with the weak topics. -/
def matchesWeak (weak : List String) (q : PoolQ) : Bool :=
  q.tags.any (fun t => weak.contains t)

/-- The selection loop of `generate_remedial_quiz` (app.py lines 877-891):
walk the pool in order, keep a question when its tags meet the weak topics
and its text has not been selected yet. -/
def selectGo (weak : List String) : List PoolQ → List String → List PoolQ
  | [], _ => []
  | q :: qs, seen =>
    if matchesWeak weak q then
      if seen.contains q.question then selectGo weak qs seen
      else q :: selectGo weak qs (q.question :: seen)
    else selectGo weak qs seen

/-- The remedial question list built from the pool and the weak topics. -/
def selectRemedial (pool : List PoolQ) (weak : List String) : List PoolQ :=
  selectGo weak pool []

/-- Specification-side description of the same selection: first filter the
pool to the questions whose tags meet the weak topics, then keep only the
first occurrence of every question text. -/
def dedupByQ : List PoolQ → List String → List PoolQ
  | [], _ => []
  | q :: qs, seen =>
    if seen.contains q.question then dedupByQ qs seen
    else q :: dedupByQ qs (q.question :: seen)

example :
    selectRemedial
      [⟨"q1", ["loops", "syntax"]⟩, ⟨"q2", ["loops"]⟩, ⟨"q1", ["loops"]⟩, ⟨"q3", ["io"]⟩]
      ["loops"] = [⟨"q1", ["loops", "syntax"]⟩, ⟨"q2", ["loops"]⟩] := rfl

/-! ## The per-tag lesson map of the results page (app.py lines 1029-1111) -/

/-- A Python dict as an insertion-ordered association list: lookup. -/
def dget {α : Type} (d : List (String × α)) (k : String) : Option α :=
  match d with
  | [] => none
  | (k2, v) :: rest => if k2 = k then some v else dget rest k

/-- A Python dict as an insertion-ordered association list: assignment
(updating a present key keeps its position, a new key is appended). -/
def dset {α : Type} (d : List (String × α)) (k : String) (v : α) : List (String × α) :=
  match d with
  | [] => [(k, v)]
  | (k2, v2) :: rest => if k2 = k then (k, v) :: rest else (k2, v2) :: dset rest k v

/-- The lesson data loaded from `lesson_plans.json` that the results page
ranks (`lesson_data.get("tags", [])` and the title it logs). -/
structure Lesson where
  title : String
  tags : List String
deriving DecidableEq

/-- Does one string contain another as a contiguous substring, starting at
the front? (Python `a == b[:len(a)]` building block for `in`.) -/
def leadsWith : List Char → List Char → Bool
  | [], _ => true
  | _ :: _, [] => false
  | a :: as, b :: bs => a = b && leadsWith as bs

/-- Python `a in b` on strings: `a` occurs contiguously somewhere in `b`. -/
def hasSub (a : List Char) : List Char → Bool
  | [] => leadsWith a []
  | b :: bs => leadsWith a (b :: bs) || hasSub a bs

/-- `lesson_relevance` (app.py lines 1071-1080): over the distinct tags of
the lesson, count those containing the topic or contained in it, case
insensitively. -/
def lessonRelevance (topic : String) (lesson : Lesson) : Nat :=
  (lesson.tags.dedup).countP
    (fun tag =>
      hasSub (pyLower topic).data (pyLower tag).data ||
      hasSub (pyLower tag).data (pyLower topic).data)

/-- `sorted(lessons_list, key=lesson_relevance, reverse=True)[0]`: Python
sort is stable, so this is the first lesson of the list with maximal
relevance. -/
def bestFor (topic : String) : List Lesson → Lesson
  | [] => ⟨"", []⟩
  | l :: ls =>
    ls.foldl (fun b y => if lessonRelevance topic b < lessonRelevance topic y then y else b) l

/-- The grouping pass of `show_results_page` (app.py lines 1036-1065):
start from a dict mapping every weak topic to an empty list, then for each
recommended lesson that loads (`loader` stands for
`get_lesson_plans(subject, subtopic)` followed by the `lesson_id` lookup),
append its data to every weak topic named in its `matching_tags`. -/
def lessonsByTopic (loader : String → String → String → Option Lesson)
    (recommended : List LessonInfo) (weak : List String) : List (String × List Lesson) :=
  recommended.foldl
    (fun d li =>
      match loader li.subject li.subtopic li.lesson_id with
      | none => d
      | some ld =>
        li.matching_tags.foldl
          (fun d2 tag =>
            if weak.contains tag then dset d2 tag ((dget d2 tag).getD [] ++ [ld]) else d2)
          d)
    (weak.foldl (fun d t => dset d t []) [])

/-- The reduction pass (app.py lines 1068-1101): a topic enters the final
map only when its collected list is non-empty, and then with its most
relevant lesson. -/
def pickBest (lbt : List (String × List Lesson)) : List (String × Lesson) :=
  lbt.foldl (fun lp p => if p.2.isEmpty then lp else dset lp p.1 (bestFor p.1 p.2)) []

/-- The `LESSON_PLANS` mapping handed to the results template (app.py lines
1029-1113): the grouping and reduction run only when both the recommended
lessons and the weak topics are non-empty, and an empty outcome falls back
to every lesson of the current subtopic keyed by lesson id. -/
def resultsLessonPlans (loader : String → String → String → Option Lesson)
    (recommended : List LessonInfo) (weak : List String)
    (fallback : List (String × Lesson)) : List (String × Lesson) :=
  let lp :=
    if !recommended.isEmpty && !weak.isEmpty then
      pickBest (lessonsByTopic loader recommended weak)
    else []
  if lp.isEmpty then fallback else lp

/-! ## Helper lemmas about the grading loop -/

/-- A successful run of the grading loop grades every question (one status
per served question) and the `correct_answers` counter counts exactly the
`Correct` statuses. -/
theorem gradeList_ok_spec (answers : Nat → Option String) :
    ∀ (qs : List QData) (i : Nat) (sts : List Status) (c : Nat),
      gradeList answers qs i = .ok (sts, c) →
      sts.length = qs.length ∧ c = sts.countP (fun s => decide (s = Status.correct)) := by
  intro qs
  induction qs with
  | nil =>
    intro i sts c h
    rw [gradeList] at h
    injection h with h
    injection h with h1 h2
    subst h1; subst h2
    simp
  | cons q qs ih =>
    intro i sts c h
    rw [gradeList] at h
    cases hg : gradeOne q ((answers i).getD "[No answer provided]") with
    | error e => rw [hg] at h; exact absurd h (by simp)
    | ok s =>
      rw [hg] at h
      cases hr : gradeList answers qs (i + 1) with
      | error e => rw [hr] at h; exact absurd h (by simp)
      | ok p =>
        obtain ⟨sts2, c2⟩ := p
        rw [hr] at h
        injection h with h
        injection h with h1 h2
        subst h1; subst h2
        obtain ⟨hl, hc⟩ := ih (i + 1) sts2 c2 hr
        constructor
        · simp [hl]
        · rw [List.countP_cons, hc]
          by_cases hs : s = Status.correct
          · simp [hs]
            omega
          · simp [hs]

/-- Claim C4: for a multiple_choice question whose answer_index is an
integer, grading yields Correct when the index is in range and the learner
answer equals options[answer_index] exactly, Incorrect on an in-range
mismatch, and Invalid Question Data when the index is out of range. -/
theorem analyze_mc_grading_trichotomy (i : Int) (opts : List String) (txt ans : String)
    (ca ss : Option String) :
    (0 ≤ i → i < (opts.length : Int) →
      gradeOne ⟨some "multiple_choice", some txt, some opts, some i, ca, ss⟩ ans =
        .ok (if ans = opts.getD i.toNat "" then Status.correct else Status.incorrect)) ∧
    (i < 0 ∨ (opts.length : Int) ≤ i →
      gradeOne ⟨some "multiple_choice", some txt, some opts, some i, ca, ss⟩ ans =
        .ok Status.invalidData) := by
  constructor
  · intro h0 hlt
    rw [gradeOne]
    simp only [qtype, Option.getD_some, if_true]
    rw [if_pos ⟨h0, hlt⟩]
    exact (apply_ite Except.ok _ _ _).symm
  · intro hout
    rw [gradeOne]
    simp only [qtype, Option.getD_some, if_true]
    rw [if_neg (by rcases hout with h | h <;> omega)]

/-- Claim C9: a fill_in_the_blank question grades Correct exactly when the
trimmed, lowercased learner answer equals one of the alternatives obtained
by splitting correct_answer on commas and trimming and lowercasing each;
otherwise it grades Incorrect. -/
theorem analyze_fitb_grading (ca txt ans : String) (opts : Option (List String))
    (ai : Option Int) (ss : Option String) :
    (gradeOne ⟨some "fill_in_the_blank", some txt, opts, ai, some ca, ss⟩ ans =
        .ok Status.correct ↔
      ∃ a ∈ pySplitComma ca, pyLower (pyStrip ans) = pyLower (pyStrip a)) ∧
    ((¬ ∃ a ∈ pySplitComma ca, pyLower (pyStrip ans) = pyLower (pyStrip a)) →
      gradeOne ⟨some "fill_in_the_blank", some txt, opts, ai, some ca, ss⟩ ans =
        .ok Status.incorrect) := by
  have hg : gradeOne ⟨some "fill_in_the_blank", some txt, opts, ai, some ca, ss⟩ ans =
      if pyLower (pyStrip ans) ∈ fitbAlternatives ca then .ok Status.correct
      else .ok Status.incorrect := by
    rw [gradeOne]
    simp [qtype]
  have hmem : pyLower (pyStrip ans) ∈ fitbAlternatives ca ↔
      ∃ a ∈ pySplitComma ca, pyLower (pyStrip ans) = pyLower (pyStrip a) := by
    rw [fitbAlternatives, List.mem_map]
    constructor
    · rintro ⟨a, ha, he⟩
      exact ⟨a, ha, he.symm⟩
    · rintro ⟨a, ha, he⟩
      exact ⟨a, ha, he.symm⟩
  rw [hg]
  constructor
  · rw [← hmem]
    split_ifs with h <;> simp [h]
  · rw [← hmem]
    intro h
    rw [if_neg h]

/-- Claim C5: on a successful grading pass every served question is counted
in the total (invalid and coding questions included), the correct counter
counts exactly the Correct statuses, and the percentage is the rounded
value of 100 * correct / total, with 0 when the total is 0. -/
theorem analyze_score_formula (qs : List QData) (answers : Nat → Option String)
    (sts : List Status) (c : Nat) (h : gradeAll qs answers = .ok (sts, c)) :
    sts.length = qs.length ∧
    c = sts.countP (fun s => decide (s = Status.correct)) ∧
    scorePercentage c qs.length =
      (if 0 < qs.length then pyRound ((100 * (c : ℚ)) / (qs.length : ℚ)) else 0) ∧
    (qs.length = 0 → scorePercentage c qs.length = 0) := by
  obtain ⟨hl, hc⟩ := gradeList_ok_spec answers qs 0 sts c h
  refine ⟨hl, hc, ?_, ?_⟩
  · rw [scorePercentage]
    split_ifs with hp
    · have : (c : ℚ) / (qs.length : ℚ) * 100 = 100 * (c : ℚ) / (qs.length : ℚ) := by
        ring
      rw [this]
    · rfl
  · intro h0
    rw [scorePercentage, h0]
    rfl

/-! ## Concrete questions used as witnesses -/

/-- A well-formed multiple-choice question: options `["3", "4"]`, answer
index 1. -/
def qMCex : QData :=
  ⟨some "multiple_choice", some "What is 2 plus 2?", some ["3", "4"], some 1, none, none⟩

/-- A coding question: never auto-graded. -/
def qCodeEx : QData :=
  ⟨some "coding", some "Write a function", none, none, none, some "def f(): pass"⟩

/-- A multiple-choice question whose `answer_index` key is absent. -/
def qBadEx : QData :=
  ⟨some "multiple_choice", some "Broken", some ["a", "b"], none, none, none⟩

/-- A multiple-choice question whose `answer_index` is out of range. -/
def qOutEx : QData :=
  ⟨some "multiple_choice", some "Out of range", some ["a", "b"], some 5, none, none⟩

/-- A submission answering only question 0, with the text "4". -/
def ansEx : Nat → Option String :=
  fun i => if i = 0 then some "4" else none

/-- Witness for C5: a two-question quiz (one correct multiple-choice answer,
one coding question) grades to statuses [Correct, For AI Review] with one
correct answer out of a total of two. -/
theorem analyze_score_formula_witness :
    ([Status.correct, Status.forAIReview] : List Status).length = [qMCex, qCodeEx].length :=
  (analyze_score_formula [qMCex, qCodeEx] ansEx [Status.correct, Status.forAIReview] 1 rfl).1

/-- Counterexample to C6 as stated: a multiple_choice question whose
answer_index key is absent raises a TypeError in the grading loop
(`0 <= None < len(options)`), aborting the whole pass: the second question
is never graded and no aggregate feedback is produced. -/
theorem analyze_grading_abort_on_missing_index :
    gradeAll [qBadEx, qCodeEx] ansEx = .error () ∧
    (¬ ∃ sts c, gradeAll [qBadEx, qCodeEx] ansEx = .ok (sts, c)) := by
  refine ⟨rfl, ?_⟩
  rintro ⟨sts, c, h⟩
  rw [(rfl : gradeAll [qBadEx, qCodeEx] ansEx = .error ())] at h
  exact Except.noConfusion h

/-- Claim C6 amended: when every multiple_choice question carries an integer
answer_index, grading is total and its errors are local: the pass completes
with one status per question, and an out-of-range answer_index yields
Invalid Question Data for that question alone. (An absent answer_index, by
contrast, raises a TypeError that aborts the whole pass.) -/
theorem analyze_grading_total_and_local (qs : List QData) (answers : Nat → Option String)
    (h : ∀ q ∈ qs, qtype q = "multiple_choice" → q.answer_index? ≠ none) :
    (∃ sts c, gradeAll qs answers = .ok (sts, c) ∧ sts.length = qs.length) ∧
    (∀ (q : QData) (ans : String) (idx : Int),
      qtype q = "multiple_choice" → q.answer_index? = some idx →
      (idx < 0 ∨ ((q.options?.getD []).length : Int) ≤ idx) →
      gradeOne q ans = .ok Status.invalidData) := by
  constructor
  · have key : ∀ (l : List QData) (i : Nat),
        (∀ q ∈ l, qtype q = "multiple_choice" → q.answer_index? ≠ none) →
        ∃ sts c, gradeList answers l i = .ok (sts, c) ∧ sts.length = l.length := by
      intro l
      induction l with
      | nil => intro i _; exact ⟨[], 0, rfl, rfl⟩
      | cons q rest ih =>
        intro i hall
        have hone : ∃ s, gradeOne q ((answers i).getD "[No answer provided]") = .ok s := by
          rw [gradeOne]
          by_cases h1 : qtype q = "multiple_choice"
          · rw [if_pos h1]
            cases hai : q.answer_index? with
            | none => exact absurd hai (hall q (List.mem_cons_self q rest) h1)
            | some idx =>
              dsimp only
              by_cases hr : 0 ≤ idx ∧ idx < ((q.options?.getD []).length : Int)
              · rw [if_pos hr]
                by_cases hc :
                    (answers i).getD "[No answer provided]" =
                      (q.options?.getD []).getD idx.toNat ""
                · rw [if_pos hc]; exact ⟨_, rfl⟩
                · rw [if_neg hc]; exact ⟨_, rfl⟩
              · rw [if_neg hr]; exact ⟨_, rfl⟩
          · rw [if_neg h1]
            by_cases h2 : qtype q = "fill_in_the_blank"
            · rw [if_pos h2]
              by_cases h3 :
                  pyLower (pyStrip ((answers i).getD "[No answer provided]")) ∈
                    fitbAlternatives (q.correct_answer?.getD "")
              · rw [if_pos h3]; exact ⟨_, rfl⟩
              · rw [if_neg h3]; exact ⟨_, rfl⟩
            · rw [if_neg h2]
              by_cases h4 : qtype q = "coding"
              · rw [if_pos h4]; exact ⟨_, rfl⟩
              · rw [if_neg h4]; exact ⟨_, rfl⟩
        obtain ⟨s, hs⟩ := hone
        obtain ⟨sts, c, hrest, hlen⟩ :=
          ih (i + 1) (fun q2 hq2 => hall q2 (List.mem_cons_of_mem q hq2))
        refine ⟨s :: sts, (if s = Status.correct then 1 else 0) + c, ?_, by simp [hlen]⟩
        rw [gradeList, hs, hrest]
    exact key qs 0 h
  · intro q ans idx hmc hai hout
    rw [gradeOne, if_pos hmc, hai]
    dsimp only
    rw [if_neg (by rcases hout with h2 | h2 <;> omega)]

/-- Witness for the amended C6: a quiz whose first question has an
out-of-range answer_index still grades to completion, one status per
question. -/
theorem analyze_grading_total_witness :
    ∃ sts c, gradeAll [qOutEx, qCodeEx] ansEx = .ok (sts, c) ∧
      sts.length = [qOutEx, qCodeEx].length :=
  (analyze_grading_total_and_local [qOutEx, qCodeEx] ansEx (by decide)).1

/-- The two session keys `/analyze` writes differ (same subject/subtopic
prefix, different suffix, hence different lengths). -/
theorem sessionKey_weak_ne_rec (subject subtopic : String) :
    sessionKey subject subtopic "weak_topics" ≠
      sessionKey subject subtopic "recommended_lessons" := by
  intro h
  have hl := congrArg String.length h
  have e1 : ("weak_topics" : String).length = 11 := rfl
  have e2 : ("recommended_lessons" : String).length = 19 := rfl
  have e3 : ("_" : String).length = 1 := rfl
  simp only [sessionKey, String.length_append, e1, e2, e3] at hl
  omega

/-- Claim C1: a successful `/analyze` validation only ever returns (and
stores) weak tags that are exact members of the allowed vocabulary: the
validated list is the candidate list filtered by case-sensitive membership,
so entries outside the vocabulary are dropped, not corrected. -/
theorem analyze_validated_tags_subset (parse : String → Option Parsed) (raw : String)
    (allowed : List String) (fb : String) (tags : List String)
    (h : analyzeRespond parse raw allowed = .ok (fb, tags)) :
    (∀ t ∈ tags, t ∈ allowed) ∧
    (∀ cand t, t ∈ validateTopics cand allowed ↔ (t ∈ cand ∧ t ∈ allowed)) ∧
    (∀ (st : Store) (subject subtopic : String) (found : List LessonInfo),
      analyzeStoreUpdate st subject subtopic tags found
        (sessionKey subject subtopic "weak_topics") = some (.tags tags)) := by
  have hfilter : ∀ cand t, t ∈ validateTopics cand allowed ↔ (t ∈ cand ∧ t ∈ allowed) := by
    intro cand t
    rw [validateTopics, List.mem_filter]
    simp
  refine ⟨?_, hfilter, ?_⟩
  · rw [analyzeRespond] at h
    by_cases h0 : raw = ""
    · rw [if_pos h0] at h; exact Except.noConfusion h
    · rw [if_neg h0] at h
      cases he : extractCandidate raw with
      | none => rw [he] at h; exact Except.noConfusion h
      | some s =>
        rw [he] at h
        dsimp only at h
        cases hp : parse s with
        | none => rw [hp] at h; exact Except.noConfusion h
        | some p =>
          rw [hp] at h
          dsimp only at h
          injection h with h
          injection h with h1 h2
          subst h2
          intro t ht
          exact ((hfilter _ t).1 ht).2
  · intro st subject subtopic found
    rw [analyzeStoreUpdate]
    by_cases ht : tags.isEmpty
    · dsimp only
      rw [if_pos ht]
      simp [storeSet]
    · dsimp only
      rw [if_neg ht]
      simp [storeSet, sessionKey_weak_ne_rec subject subtopic]

/-- Witness for C1: with allowed vocabulary [add, subtract] and classifier
candidates [add, bogus], the validated tag add is in the vocabulary. -/
theorem analyze_validated_tags_witness : "add" ∈ (["add", "subtract"] : List String) :=
  (analyze_validated_tags_subset (fun _ => some ⟨some "ok", some ["add", "bogus"]⟩)
    "{x}" ["add", "subtract"] "ok" ["add"] rfl).1 "add" (by decide)

/-- Counterexample to C7 as stated: the empty classifier reply has no
extractable JSON object, yet `/analyze` reports the could-not-get-analysis
error, not the malformed-JSON error body the claim names. -/
theorem analyze_no_json_cex :
    extractCandidate "" = none ∧
    analyzeRespond (fun _ => none) "" ([] : List String) = .error AnalyzeErr.noContent ∧
    AnalyzeErr.noContent ≠ AnalyzeErr.noJson ∧
    (errBody AnalyzeErr.noContent).2.1 = "Error: Could not get analysis from AI." := by
  refine ⟨rfl, rfl, ?_, rfl⟩
  intro hcon
  exact AnalyzeErr.noConfusion hcon

/-- Claim C7 amended: for every non-empty classifier reply from which no
JSON object can be extracted, `/analyze` fails with the malformed-response
error whose body says the response did not contain a valid JSON object and
carries an empty weak-topic list; the outcome is never a success. (The
empty reply instead takes the earlier could-not-get-analysis error exit.) -/
theorem analyze_no_json_amended (parse : String → Option Parsed) (raw : String)
    (allowed : List String) (h1 : raw ≠ "") (h2 : extractCandidate raw = none) :
    analyzeRespond parse raw allowed = .error AnalyzeErr.noJson ∧
    errBody AnalyzeErr.noJson =
      (500, "Error: The analysis response did not contain a valid JSON object.", []) ∧
    (∀ fb tags, analyzeRespond parse raw allowed ≠ .ok (fb, tags)) := by
  have hmain : analyzeRespond parse raw allowed = .error AnalyzeErr.noJson := by
    rw [analyzeRespond, if_neg h1, h2]
  refine ⟨hmain, rfl, ?_⟩
  intro fb tags hok
  rw [hmain] at hok
  exact Except.noConfusion hok

/-- Witness for the amended C7: a brace-free reply is rejected as not
containing a valid JSON object. -/
theorem analyze_no_json_witness :
    analyzeRespond (fun _ => none) "no json here" ([] : List String) =
      .error AnalyzeErr.noJson :=
  (analyze_no_json_amended (fun _ => none) "no json here" [] (by decide) rfl).1

/-- Claim C10: a successful `/analyze` run that validates an empty weak-tag
set overwrites the weak_topics entry of the scope with the empty list and
touches nothing else — in particular the recommended_lessons entry keeps
whatever value an earlier analysis left there; the lessons entry is written
(with the freshly found lessons) only when the validated set is non-empty. -/
theorem analyze_empty_set_frame (st : Store) (subject subtopic : String)
    (found : List LessonInfo) :
    (analyzeStoreUpdate st subject subtopic [] found
        (sessionKey subject subtopic "weak_topics") = some (.tags [])) ∧
    (∀ k, k ≠ sessionKey subject subtopic "weak_topics" →
      analyzeStoreUpdate st subject subtopic [] found k = st k) ∧
    (analyzeStoreUpdate st subject subtopic [] found
        (sessionKey subject subtopic "recommended_lessons") =
      st (sessionKey subject subtopic "recommended_lessons")) ∧
    (∀ (validated : List String), validated ≠ [] →
      analyzeStoreUpdate st subject subtopic validated found
          (sessionKey subject subtopic "recommended_lessons") =
        some (.lessonRecs found)) := by
  have hframe : ∀ k, k ≠ sessionKey subject subtopic "weak_topics" →
      analyzeStoreUpdate st subject subtopic [] found k = st k := by
    intro k hk
    simp [analyzeStoreUpdate, storeSet, hk]
  refine ⟨?_, hframe, ?_, ?_⟩
  · simp [analyzeStoreUpdate, storeSet]
  · exact hframe _ (sessionKey_weak_ne_rec subject subtopic).symm
  · intro validated hv
    simp [analyzeStoreUpdate, storeSet, List.isEmpty_iff, hv]

/-- Counterexample to C8 as stated: with a current scope in the session but
no weak_topics entry (a quiz was served, analysis never ran), the gate of
`generate_remedial_quiz` returns the mastered message, the same outcome as
for a stored empty list, not a distinct no-session message. -/
theorem remedial_gate_collapse_cex :
    remedialGate (some "python") (some "functions") (fun _ => none) =
      RemedialGate.mastered ∧
    remedialGate (some "python") (some "functions")
        (fun k => if k = "python_functions_weak_topics" then some (.tags []) else none) =
      RemedialGate.mastered ∧
    RemedialGate.mastered ≠ RemedialGate.sessionErr := by
  refine ⟨rfl, rfl, ?_⟩
  intro hcon
  exact RemedialGate.noConfusion hcon

/-- Claim C8 amended: the gate distinguishes only a missing or empty
current subject/subtopic (session-error message) from an absent-or-empty
weak_topics entry under a valid scope (mastered message); a scope that was
never analyzed and a scope whose analysis validated an empty set both take
the mastered branch and are not distinguishable. -/
theorem remedial_gate_routing (subject subtopic : String) (st st2 : Store) :
    (remedialGate none (some subtopic) st = .sessionErr) ∧
    (remedialGate (some subject) none st = .sessionErr) ∧
    (subject ≠ "" → subtopic ≠ "" →
      (remedialGate (some subject) (some subtopic) st = .mastered ↔
        (match st (sessionKey subject subtopic "weak_topics") with
          | some (.tags l) => l
          | _ => []) = [])) ∧
    (st (sessionKey subject subtopic "weak_topics") = none →
      st2 (sessionKey subject subtopic "weak_topics") = some (.tags []) →
      remedialGate (some subject) (some subtopic) st =
        remedialGate (some subject) (some subtopic) st2) := by
  refine ⟨rfl, ?_, ?_, ?_⟩
  · rw [remedialGate]
    rw [if_pos (by simp [pyTruthy])]
  · intro hs ht
    rw [remedialGate]
    rw [if_neg (by simp [pyTruthy, hs, ht])]
    dsimp only [Option.getD_some]
    constructor
    · intro hg
      by_cases hw :
          (match st (sessionKey subject subtopic "weak_topics") with
            | some (.tags l) => l
            | _ => []) = []
      · exact hw
      · rw [if_neg (by simpa [List.isEmpty_iff] using hw)] at hg
        exact RemedialGate.noConfusion hg
    · intro hw
      rw [if_pos (by simpa [List.isEmpty_iff] using hw)]
  · intro h1 h2
    rw [remedialGate, remedialGate]
    simp only [Option.getD_some]
    rw [h1, h2]

/-! ## Lemmas about the remedial selection loop -/

/-- The single-pass selection loop equals filtering the pool by tag overlap
and then dropping repeated question texts. -/
theorem selectGo_eq (weak : List String) :
    ∀ (pool : List PoolQ) (seen : List String),
      selectGo weak pool seen = dedupByQ (pool.filter (matchesWeak weak)) seen := by
  intro pool
  induction pool with
  | nil => intro seen; rfl
  | cons q qs ih =>
    intro seen
    by_cases hm : matchesWeak weak q
    · simp [selectGo, dedupByQ, List.filter_cons, hm, ih]
    · simp [selectGo, List.filter_cons, hm, ih]

/-- Deduplication only drops elements: the result is a sublist. -/
theorem dedupByQ_sublist : ∀ (l : List PoolQ) (seen : List String),
    List.Sublist (dedupByQ l seen) l := by
  intro l
  induction l with
  | nil => intro seen; simp [dedupByQ]
  | cons q qs ih =>
    intro seen
    rw [dedupByQ]
    split_ifs with h
    · exact List.Sublist.cons q (ih seen)
    · exact List.Sublist.cons₂ q (ih (q.question :: seen))

/-- A question text survives deduplication exactly when it occurs in the
input and is not among the already-seen texts. -/
theorem dedupByQ_mem_key : ∀ (l : List PoolQ) (seen : List String) (k : String),
    (k ∈ (dedupByQ l seen).map (fun q => q.question)) ↔
      (k ∈ l.map (fun q => q.question) ∧ k ∉ seen) := by
  intro l
  induction l with
  | nil => intro seen k; simp [dedupByQ]
  | cons q qs ih =>
    intro seen k
    rw [dedupByQ]
    split_ifs with h
    · have hmem : q.question ∈ seen := by simpa using h
      rw [ih]
      simp only [List.map_cons, List.mem_cons]
      constructor
      · rintro ⟨h1, h2⟩
        exact ⟨Or.inr h1, h2⟩
      · rintro ⟨h1 | h1, h2⟩
        · exact absurd (h1 ▸ hmem) h2
        · exact ⟨h1, h2⟩
    · have hq : q.question ∉ seen := by simpa using h
      simp only [List.map_cons, List.mem_cons]
      rw [ih]
      constructor
      · rintro (h1 | ⟨h1, h2⟩)
        · exact ⟨Or.inl h1, h1 ▸ hq⟩
        · exact ⟨Or.inr h1, fun hk => h2 (List.mem_cons_of_mem _ hk)⟩
      · rintro ⟨h1 | h1, h2⟩
        · exact Or.inl h1
        · by_cases hkq : k = q.question
          · exact Or.inl hkq
          · right
            refine ⟨h1, ?_⟩
            intro hk
            rcases List.mem_cons.1 hk with he | hs2
            · exact hkq he
            · exact h2 hs2

/-- After deduplication no question text repeats. -/
theorem dedupByQ_nodup : ∀ (l : List PoolQ) (seen : List String),
    ((dedupByQ l seen).map (fun q => q.question)).Nodup := by
  intro l
  induction l with
  | nil => intro seen; simp [dedupByQ]
  | cons q qs ih =>
    intro seen
    rw [dedupByQ]
    split_ifs with h
    · exact ih seen
    · simp only [List.map_cons]
      rw [List.nodup_cons]
      constructor
      · intro hmem
        rw [dedupByQ_mem_key] at hmem
        exact hmem.2 (List.mem_cons_self _ _)
      · exact ih _

/-- Claim C2: the remedial quiz is the pool filtered to questions whose tag
set meets the weak-tag set, deduplicated by exact question text with the
first occurrence winning: every selected question overlaps the weak tags,
every matching pool question is represented by its text, pool order is
preserved, and no two selected questions share a text. -/
theorem remedial_selection_spec (pool : List PoolQ) (weak : List String) :
    selectRemedial pool weak = dedupByQ (pool.filter (matchesWeak weak)) [] ∧
    (∀ q ∈ selectRemedial pool weak, matchesWeak weak q = true) ∧
    (∀ q ∈ pool, matchesWeak weak q = true →
      q.question ∈ (selectRemedial pool weak).map (fun x => x.question)) ∧
    List.Sublist (selectRemedial pool weak) pool ∧
    ((selectRemedial pool weak).map (fun x => x.question)).Nodup := by
  have he : selectRemedial pool weak = dedupByQ (pool.filter (matchesWeak weak)) [] :=
    selectGo_eq weak pool []
  refine ⟨he, ?_, ?_, ?_, ?_⟩
  · intro q hq
    rw [he] at hq
    have hmem : q ∈ pool.filter (matchesWeak weak) :=
      (dedupByQ_sublist _ _).subset hq
    exact (List.mem_filter.1 hmem).2
  · intro q hq hm
    rw [he, dedupByQ_mem_key]
    refine ⟨?_, by simp⟩
    exact List.mem_map_of_mem _ (List.mem_filter.2 ⟨hq, hm⟩)
  · rw [he]
    exact (dedupByQ_sublist _ _).trans (List.filter_sublist pool)
  · rw [he]
    exact dedupByQ_nodup _ _

/-! ## Lemmas about the association-list dictionary -/

/-- Looking up the key just assigned gives the assigned value. -/
theorem dget_dset_self {α : Type} : ∀ (d : List (String × α)) (k : String) (v : α),
    dget (dset d k v) k = some v := by
  intro d
  induction d with
  | nil => intro k v; simp [dget, dset]
  | cons p rest ih =>
    intro k v
    obtain ⟨k2, v2⟩ := p
    rw [dset]
    split_ifs with h
    · rw [dget, if_pos rfl]
    · rw [dget, if_neg h, ih]

/-- Assignment does not change the value at other keys. -/
theorem dget_dset_ne {α : Type} : ∀ (d : List (String × α)) (k k2 : String) (v : α),
    k ≠ k2 → dget (dset d k v) k2 = dget d k2 := by
  intro d
  induction d with
  | nil =>
    intro k k2 v h
    simp [dset, dget, h]
  | cons p rest ih =>
    intro k k2 v h
    obtain ⟨k3, v3⟩ := p
    rw [dset]
    split_ifs with h3
    · subst h3
      simp [dget, h]
    · rw [dget, dget]
      split_ifs with h4
      · rfl
      · exact ih k k2 v h

/-- Assignment preserves presence of every key. -/
theorem dget_isSome_dset {α : Type} (d : List (String × α)) (k k2 : String) (v : α)
    (h : (dget d k2).isSome = true) : (dget (dset d k v) k2).isSome = true := by
  by_cases he : k = k2
  · subst he
    rw [dget_dset_self]
    rfl
  · rw [dget_dset_ne d k k2 v he]
    exact h

/-- A left fold of key-preserving dictionary operations preserves presence
of every key. -/
theorem dget_isSome_foldl {α β : Type} (g : List (String × α) → β → List (String × α))
    (hg : ∀ d b t, (dget d t).isSome = true → (dget (g d b) t).isSome = true) :
    ∀ (l : List β) (d : List (String × α)) (t : String),
      (dget d t).isSome = true → (dget (l.foldl g d) t).isSome = true := by
  intro l
  induction l with
  | nil => intro d t h; exact h
  | cons b bs ih =>
    intro d t h
    rw [List.foldl_cons]
    exact ih _ _ (hg d b t h)

/-- After seeding the dictionary with every key of a list, each of those
keys is present. -/
theorem dget_foldl_init {α : Type} (v0 : α) :
    ∀ (keys : List String) (d0 : List (String × α)) (t : String),
      t ∈ keys ∨ (dget d0 t).isSome = true →
      (dget (keys.foldl (fun d k => dset d k v0) d0) t).isSome = true := by
  intro keys
  induction keys with
  | nil =>
    intro d0 t h
    rcases h with h | h
    · exact absurd h (List.not_mem_nil t)
    · exact h
  | cons w ws ih =>
    intro d0 t h
    rw [List.foldl_cons]
    apply ih
    rcases h with h | h
    · rcases List.mem_cons.1 h with he | hm
      · right
        subst he
        rw [dget_dset_self]
        rfl
      · left
        exact hm
    · right
      exact dget_isSome_dset _ _ _ _ h

/-- Every weak topic is a key of the lessons-by-topic grouping, whether or
not any recommended lesson matched it. -/
theorem lessonsByTopic_total (loader : String → String → String → Option Lesson)
    (recommended : List LessonInfo) (weak : List String) :
    ∀ t ∈ weak, (dget (lessonsByTopic loader recommended weak) t).isSome = true := by
  intro t ht
  rw [lessonsByTopic]
  apply dget_isSome_foldl
  · intro d li t2 h2
    cases hl : loader li.subject li.subtopic li.lesson_id with
    | none =>
      dsimp only
      exact h2
    | some ld =>
      dsimp only
      apply dget_isSome_foldl
      · intro d2 tag t3 h3
        by_cases hc : weak.contains tag
        · rw [if_pos hc]
          exact dget_isSome_dset _ _ _ _ h3
        · rw [if_neg hc]
          exact h3
      · exact h2
  · exact dget_foldl_init ([] : List Lesson) weak [] t (Or.inl ht)

/-- A key of the reduced best-lesson map comes from a grouping entry with a
non-empty lesson list. -/
theorem pickBest_keys :
    ∀ (lbt : List (String × List Lesson)) (acc : List (String × Lesson)) (t : String),
      (dget (List.foldl
          (fun lp p => if p.2.isEmpty then lp else dset lp p.1 (bestFor p.1 p.2)) acc lbt)
        t).isSome = true →
      (dget acc t).isSome = true ∨ ∃ ll, (t, ll) ∈ lbt ∧ ll ≠ [] := by
  intro lbt
  induction lbt with
  | nil => intro acc t h; exact Or.inl h
  | cons p rest ih =>
    intro acc t h
    rw [List.foldl_cons] at h
    rcases ih _ t h with h2 | h2
    · by_cases hE : p.2.isEmpty
      · rw [if_pos hE] at h2
        exact Or.inl h2
      · rw [if_neg hE] at h2
        by_cases htp : p.1 = t
        · right
          refine ⟨p.2, ?_, by simpa [List.isEmpty_iff] using hE⟩
          have hp : (t, p.2) = p := by rw [← htp]
          rw [hp]
          exact List.mem_cons_self p rest
        · rw [dget_dset_ne _ _ _ _ htp] at h2
          exact Or.inl h2
    · rcases h2 with ⟨ll, hm, hne⟩
      exact Or.inr ⟨ll, List.mem_cons_of_mem _ hm, hne⟩

/-- Claim C3 amended: the intermediate lessons-by-topic grouping of the
results page contains every weak tag as a key (an unmatched tag maps to the
empty list), but the final per-tag lesson map keeps only the tags whose
collected lesson list is non-empty, so an unmatched weak tag is absent from
the map handed to the template. -/
theorem results_lesson_map_keys (loader : String → String → String → Option Lesson)
    (recommended : List LessonInfo) (weak : List String) :
    (∀ t ∈ weak, (dget (lessonsByTopic loader recommended weak) t).isSome = true) ∧
    (∀ t, (dget (pickBest (lessonsByTopic loader recommended weak)) t).isSome = true →
      ∃ ll, (t, ll) ∈ lessonsByTopic loader recommended weak ∧ ll ≠ []) := by
  refine ⟨lessonsByTopic_total loader recommended weak, ?_⟩
  intro t h
  rw [pickBest] at h
  rcases pickBest_keys _ [] t h with h2 | h2
  · rw [dget] at h2
    exact absurd h2 (by simp)
  · exact h2

/-- The lesson loader of the counterexample: one lesson, tagged alpha, under
python/functions. -/
def loaderEx : String → String → String → Option Lesson :=
  fun subject subtopic lessonId =>
    if subject = "python" && subtopic = "functions" && lessonId = "l1" then
      some ⟨"Alpha Lesson", ["alpha"]⟩
    else none

/-- The recommended-lessons list of the counterexample: the one lesson,
matching only the weak tag alpha. -/
def recEx : List LessonInfo :=
  [⟨"python", "functions", "l1", "Alpha Lesson", ["alpha"], ["alpha"]⟩]

/-- Counterexample to C3 as stated: with the non-empty weak-tag set
[alpha, beta], the per-tag lesson map the results page builds has a key for
alpha but none for beta (beta matched no lesson), so an unmatched weak tag
is dropped from the map, not mapped to an empty value. -/
theorem results_lesson_map_missing_tag_cex :
    ("beta" ∈ (["alpha", "beta"] : List String)) ∧
    dget (resultsLessonPlans loaderEx recEx ["alpha", "beta"] []) "beta" = none ∧
    dget (resultsLessonPlans loaderEx recEx ["alpha", "beta"] []) "alpha" =
      some ⟨"Alpha Lesson", ["alpha"]⟩ := by
  refine ⟨by decide, rfl, rfl⟩
